import Mathlib

/-! # Interrupt-driven frame receivers of `isr.c`

`isr.c` holds several independent sketches of a serial-line receiver: an
interrupt handler `isr` that is called once per received byte and a `main`
that consumes a completed buffer.  Each sketch is embedded in its own
namespace, with the C statics and globals gathered in a `State` record.

Conventions of the embedding.

* A `char` is its byte value, a natural number.
* `volatile char buffer[BUFFER_SIZE]` is a list of `BUFFER_SIZE` bytes.  A
  store `buffer[i] = c` with `i < BUFFER_SIZE` is `List.set`; a store with
  `BUFFER_SIZE ≤ i` lies outside the array, has no defined result in C, and
  makes the handler return `none`.
* `uint8_t` arithmetic is arithmetic on naturals reduced modulo `256`.
* `size_t` is 64 bits wide: a sum of two `size_t` values that can exceed
  `SIZE_MAX` is reduced modulo `SIZE_MAX + 1`.
-/

/-! ## Definitions -/

/-- `constexpr size_t BUFFER_SIZE = 50;` -/
def BUFFER_SIZE : Nat := 50

/-- `constexpr char COMPLETE = '\n';` -/
def COMPLETE : Nat := 10

/-- The largest value of a 64-bit `size_t`. -/
def SIZE_MAX : Nat := 2 ^ 64 - 1

/-- Deliver the bytes of `cs` to a handler, one call per byte, in order.  The
result is `none` as soon as one call stores outside its array. -/
def feed {σ : Type} (isr : σ → Nat → Option σ) : σ → List Nat → Option σ
  | s, [] => some s
  | s, c :: cs => (isr s c).bind (fun t => feed isr t cs)

/-- One thing that happens to a receiver: the interrupt delivers a byte, or
the main context runs its consumer body. -/
inductive Event where
  | byte (c : Nat)
  | consume
deriving DecidableEq, Repr

/-- Run an interleaving of interrupt calls and consumer steps. -/
def run {σ : Type} (isr : σ → Nat → Option σ) (main : σ → σ) : σ → List Event → Option σ
  | s, [] => some s
  | s, Event.byte c :: es => (isr s c).bind (fun t => run isr main t es)
  | s, Event.consume :: es => run isr main (main s) es

namespace Single

/-- Globals `buffer`, `buffer_size` and the static `counter` of the first
sketch (lines 1-34). -/
structure State where
  buffer : List Nat
  buffer_size : Nat
  counter : Nat
deriving DecidableEq, Repr

/-- State at start-up: zero-initialised globals, `counter = 0`. -/
def init : State :=
  { buffer := List.replicate BUFFER_SIZE 0, buffer_size := 0, counter := 0 }

/-- The index of the store `buffer[counter++] = c` that `isr` performs in
state `s`, or `none` when the call stores nothing. -/
def storeIndex (s : State) : Option Nat :=
  if s.buffer_size = 0 then some s.counter else none

/-- `void isr(char c)`, lines 21-34. -/
def isr (s : State) (c : Nat) : Option State :=
  if s.buffer_size = 0 then
    if s.counter < BUFFER_SIZE then
      let buffer := s.buffer.set s.counter c
      let counter := s.counter + 1
      if c = COMPLETE then
        some { buffer := buffer, buffer_size := counter, counter := 0 }
      else
        some { buffer := buffer, buffer_size := s.buffer_size, counter := counter }
    else
      none
  else
    some s

/-- The consumer body of `main`, lines 12-18: a complete buffer is used and
then released. -/
def main (s : State) : State :=
  if s.buffer_size ≠ 0 then { s with buffer_size := 0 } else s

end Single

/-- Modelled from the spec: `hex_to_byte` is called by the checksum `isr` but
is defined nowhere in the repository.  The spec has the trailer byte decoded
"as a hex nibble", a byte outside the hex-digit range being a decode error;
the handler takes every result above `0x0f` as that error.  Digits `0`-`9`,
`A`-`F` and `a`-`f` give their value, every other byte gives `0xff`. -/
def hex_to_byte (c : Nat) : Nat :=
  if 48 ≤ c ∧ c ≤ 57 then c - 48
  else if 65 ≤ c ∧ c ≤ 70 then c - 55
  else if 97 ≤ c ∧ c ≤ 102 then c - 87
  else 255

/-- Modelled from the spec: the hex encoding "used to write the trailer", which
the sender applies and the repository does not contain: the upper-case ASCII
digit of a nibble. -/
def hexDigit (n : Nat) : Nat :=
  if n < 10 then 48 + n else 55 + n

/-- XOR of all bytes of a payload. -/
def xorAll (p : List Nat) : Nat :=
  p.foldl (fun a b => a ^^^ b) 0

namespace Checksum

/-- `enum status`, lines 163-165. -/
inductive status where
  | WAITING_START
  | WAITING_DATA
  | WAITING_CRC1
  | WAITING_CRC2
deriving DecidableEq, Repr

/-- Globals `buffer`, `buffer_size`, the statics of `isr` (lines 168-171) and
the interrupt-enable flag that `enableISR` sets and `disableISR` clears. -/
structure State where
  buffer : List Nat
  buffer_size : Nat
  counter : Nat
  current_status : status
  xor_calculated : Nat
  xor_got : Nat
  isr_enabled : Bool
deriving DecidableEq, Repr

/-- State at start-up, after `enableISR()`. -/
def init : State :=
  { buffer := List.replicate BUFFER_SIZE 0, buffer_size := 0, counter := 0,
    current_status := status.WAITING_START, xor_calculated := 0, xor_got := 0,
    isr_enabled := true }

/-- The index of the store `buffer[counter++] = c` that `isr` performs on byte
`c` in state `s` (line 188), or `none` when the call stores nothing. -/
def storeIndex (s : State) (c : Nat) : Option Nat :=
  if s.current_status = status.WAITING_DATA ∧ c ≠ 36 ∧ c ≠ 42 then some s.counter else none

/-- `void isr(char c)`, lines 167-229.  `36` is `'$'` and `42` is `'*'`; the
result of `hex_to_byte` is the `uint8_t` kept in `half_byte`. -/
def isr (hex_to_byte : Nat → Nat) (s : State) (c : Nat) : Option State :=
  match s.current_status with
  | status.WAITING_START =>
    if c = 36 then
      some { s with current_status := status.WAITING_DATA, counter := 0, xor_calculated := 0 }
    else
      some s
  | status.WAITING_DATA =>
    if c = 36 then
      some { s with counter := 0, xor_calculated := 0 }
    else if c = 42 then
      some { s with current_status := status.WAITING_CRC1 }
    else if s.counter < BUFFER_SIZE then
      some { s with buffer := s.buffer.set s.counter c, counter := s.counter + 1,
                    xor_calculated := (s.xor_calculated ^^^ c) % 256 }
    else
      none
  | status.WAITING_CRC1 =>
    let half_byte := hex_to_byte c
    if half_byte > 0x0f then
      if c = 36 then
        some { s with current_status := status.WAITING_DATA, counter := 0, xor_calculated := 0 }
      else
        some { s with current_status := status.WAITING_START }
    else
      some { s with xor_got := (half_byte <<< 4) % 256, current_status := status.WAITING_CRC2 }
  | status.WAITING_CRC2 =>
    let half_byte := hex_to_byte c
    if half_byte > 0x0f then
      if c = 36 then
        some { s with current_status := status.WAITING_DATA, counter := 0, xor_calculated := 0 }
      else
        some s
    else
      let xor_got := (s.xor_got ||| half_byte) % 256
      if xor_got = s.xor_calculated then
        some { s with xor_got := xor_got, current_status := status.WAITING_START,
                      buffer_size := s.counter, isr_enabled := false }
      else
        some { s with xor_got := xor_got, current_status := status.WAITING_START }

end Checksum

namespace Double

/-- `struct smart_array`, lines 233-236. -/
structure smart_array where
  data : List Nat
  buffer_size : Nat
deriving DecidableEq, Repr

/-- Globals `buffers[2]`, `buffer_ready` and the static `current_buffer` of
`isr` (lines 238-255). -/
structure State where
  buffers : smart_array × smart_array
  buffer_ready : Int
  current_buffer : Bool
deriving DecidableEq, Repr

/-- State at start-up: `buffers = {{0,0},{0,0}}`, `buffer_ready = -1`,
`current_buffer = 0`. -/
def init : State :=
  { buffers := (⟨List.replicate BUFFER_SIZE 0, 0⟩, ⟨List.replicate BUFFER_SIZE 0, 0⟩),
    buffer_ready := -1, current_buffer := false }

/-- The element `buffers[b]`. -/
def slot (s : State) (b : Bool) : smart_array :=
  if b then s.buffers.2 else s.buffers.1

/-- Assignment to the element `buffers[b]`. -/
def setSlot (s : State) (b : Bool) (a : smart_array) : State :=
  if b then { s with buffers := (s.buffers.1, a) } else { s with buffers := (a, s.buffers.2) }

/-- The value of a `bool` converted to `int`. -/
def boolToInt (b : Bool) : Int :=
  if b then 1 else 0

/-- `void isr(char c)`, lines 254-268.  The `else` of line 263 belongs to
`if (c == COMPLETE)`. -/
def isr (s : State) (c : Nat) : Option State :=
  let cur := slot s s.current_buffer
  if cur.buffer_size < BUFFER_SIZE then
    let s1 := setSlot s s.current_buffer
      { data := cur.data.set cur.buffer_size c, buffer_size := cur.buffer_size + 1 }
    if c = COMPLETE then
      if s1.buffer_ready = -1 then
        some { s1 with buffer_ready := boolToInt s1.current_buffer,
                       current_buffer := !s1.current_buffer }
      else
        some s1
    else
      some (setSlot s1 s1.current_buffer { slot s1 s1.current_buffer with buffer_size := 0 })
  else
    none

/-- The index, in `buffers[current_buffer].data`, of the store of line 257. -/
def storeIndex (s : State) : Nat :=
  (slot s s.current_buffer).buffer_size

/-- The consumer body of `main`, lines 245-251. -/
def main (s : State) : State :=
  if 0 ≤ s.buffer_ready then { s with buffer_ready := -1 } else s

end Double

namespace Checksum

/-- The consumer body of `main`, lines 154-160: when `buffer_size != 0` the
buffer is used and then released by `enableISR()`. -/
def main (s : State) : State :=
  if s.buffer_size ≠ 0 then { s with isr_enabled := true } else s

end Checksum

/-- The bytes that an interleaving delivers to the handler, in order. -/
def bytes : List Event → List Nat
  | [] => []
  | Event.byte c :: es => c :: bytes es
  | Event.consume :: es => bytes es

/-- The line in progress after the bytes `bs` have followed a line in
progress `line`: the bytes after the last `COMPLETE`. -/
def lineAfter (line : List Nat) (bs : List Nat) : List Nat :=
  bs.foldl (fun acc b => if b = COMPLETE then [] else acc ++ [b]) line

/-- The line in progress at the end of a byte stream: all bytes from just
after the last `COMPLETE` (or from the start of the stream). -/
def currentLine (bs : List Nat) : List Nat :=
  lineAfter [] bs

/-- Whether every byte of an interleaving arrives while the line in progress,
which holds `n` bytes at the start, has fewer than `BUFFER_SIZE` bytes: every
line, its terminator included, is at most `BUFFER_SIZE` bytes long. -/
def fitsFrom (n : Nat) : List Event → Bool
  | [] => true
  | Event.byte c :: es =>
    decide (n < BUFFER_SIZE) && fitsFrom (if c = COMPLETE then 0 else n + 1) es
  | Event.consume :: es => fitsFrom n es

namespace Pause

/-- Globals `buffer`, `buffer_size`, the static `counter` of the pause-intake
sketches (lines 40-65 and 115-140) and the interrupt-enable flag that
`enableISR` sets and `disableISR` clears. -/
structure State where
  buffer : List Nat
  buffer_size : Nat
  counter : Nat
  isr_enabled : Bool
deriving DecidableEq, Repr

/-- State at start-up, after `enableISR()`. -/
def init : State :=
  { buffer := List.replicate BUFFER_SIZE 0, buffer_size := 0, counter := 0,
    isr_enabled := true }

/-- `void isr(char c)`, lines 132-140; the body of `isr` of lines 57-65 is the
same. -/
def isr (s : State) (c : Nat) : Option State :=
  if s.counter < BUFFER_SIZE then
    let buffer := s.buffer.set s.counter c
    let counter := s.counter + 1
    if c = COMPLETE then
      some { buffer := buffer, buffer_size := counter, counter := counter,
             isr_enabled := false }
    else
      some { s with buffer := buffer, counter := counter }
  else
    none

/-- The consumer body of `main`, lines 49-54: when the interrupt is disabled
the buffer is used and the interrupt enabled again. -/
def main (s : State) : State :=
  if !s.isr_enabled then { s with isr_enabled := true } else s

/-- The consumer body of `main`, lines 124-129: when `buffer_size` is not
zero the buffer is used and the interrupt enabled again. -/
def main_by_size (s : State) : State :=
  if s.buffer_size ≠ 0 then { s with isr_enabled := true } else s

end Pause

namespace Loss

/-- Globals `buffer`, `buffer_size` and the statics `counter`, `error_line`
of the loss-handling sketch (lines 69-110). -/
structure State where
  buffer : List Nat
  buffer_size : Nat
  counter : Nat
  error_line : Bool
deriving DecidableEq, Repr

/-- State at start-up: zero-initialised globals, `counter = 0`,
`error_line = false`. -/
def init : State :=
  { buffer := List.replicate BUFFER_SIZE 0, buffer_size := 0, counter := 0,
    error_line := false }

/-- `void isr(char c)`, lines 88-110. -/
def isr (s : State) (c : Nat) : Option State :=
  if s.error_line then
    if c = COMPLETE then
      some { s with error_line := false }
    else
      some s
  else if s.buffer_size = 0 then
    if s.counter < BUFFER_SIZE then
      let buffer := s.buffer.set s.counter c
      let counter := s.counter + 1
      if c = COMPLETE then
        some { s with buffer := buffer, buffer_size := counter, counter := 0 }
      else
        some { s with buffer := buffer, counter := counter }
    else
      none
  else
    some { s with error_line := true }

/-- The index of the store `buffer[counter++] = c` of line 101 that `isr`
performs in state `s`, or `none` when the call stores nothing. -/
def storeIndex (s : State) : Option Nat :=
  if s.error_line then none else if s.buffer_size = 0 then some s.counter else none

/-- The consumer body of `main`, lines 79-85. -/
def main (s : State) : State :=
  if s.buffer_size ≠ 0 then { s with buffer_size := 0 } else s

/-- What the handler state knows of the line in progress `line`: while no
line is being skipped, the first `counter` bytes of the buffer are that line;
while a frame is pending or a line is being skipped, `counter` is 0. -/
def Tracks (s : State) (line : List Nat) : Prop :=
  s.buffer.length = BUFFER_SIZE ∧
    (s.error_line = true → s.counter = 0) ∧
    (s.buffer_size ≠ 0 → s.counter = 0) ∧
    (s.error_line = false → s.counter = line.length ∧ s.buffer.take s.counter = line)

end Loss

namespace Ring

/-- `struct smart_array` of lines 271-275; the global `buffer` is the one
value of this type. -/
structure smart_array where
  data : List Nat
  buffer_start : Nat
  available : Nat
deriving DecidableEq, Repr

/-- State at start-up: the zero-initialised global `buffer`. -/
def init : smart_array :=
  { data := List.replicate BUFFER_SIZE 0, buffer_start := 0, available := 0 }

/-- The index of the store `buffer.data[buffer.buffer_start + buffer.available] = c`
of line 294, a `size_t` sum, or `none` when the call returns at line 291. -/
def storeIndex (s : smart_array) : Option Nat :=
  if s.available ≥ BUFFER_SIZE then none
  else some ((s.buffer_start + s.available) % (SIZE_MAX + 1))

/-- `void isr(char c)`, lines 288-296.  The sum of the two `size_t` fields
wraps around at `SIZE_MAX`. -/
def isr (s : smart_array) (c : Nat) : Option smart_array :=
  if s.available ≥ BUFFER_SIZE then
    some s
  else
    let index := (s.buffer_start + s.available) % (SIZE_MAX + 1)
    if index < BUFFER_SIZE then
      some { s with data := s.data.set index c }
    else
      none

end Ring

/-! ## Theorems -/

/-! ### Delivering bytes -/

theorem feed_append {σ : Type} (isr : σ → Nat → Option σ) (s : σ) (a b : List Nat) :
    feed isr s (a ++ b) = (feed isr s a).bind (fun t => feed isr t b) := by
  induction a generalizing s with
  | nil => simp [feed]
  | cons c cs ih =>
    simp only [List.cons_append, feed]
    cases isr s c with
    | none => simp
    | some t => simpa using ih t

/-- Storing `c` at index `k` and then laying `p` out from index `k + 1` is
laying `c :: p` out from index `k`. -/
theorem set_then_overlay (l : List Nat) (k c : Nat) (p : List Nat) (hk : k < l.length) :
    (l.set k c).take (k + 1) ++ p ++ (l.set k c).drop (k + 1 + p.length)
      = l.take k ++ (c :: p) ++ l.drop (k + (c :: p).length) := by
  have h0 : (l.set k c).take k = l.take k := by
    apply List.ext_getElem?
    intro i
    rw [List.getElem?_take, List.getElem?_take]
    split
    · rw [List.getElem?_set_ne (by omega)]
    · rfl
  have h1 : (l.set k c).take (k + 1) = l.take k ++ [c] := by
    rw [List.take_succ, h0]
    simp [List.getElem?_set, hk]
  have h2 : (l.set k c).drop (k + 1 + p.length) = l.drop (k + 1 + p.length) := by
    rw [List.drop_set_of_lt]
    omega
  rw [h1, h2]
  simp [Nat.add_assoc, Nat.add_comm 1]

namespace Single

theorem single_isr_busy (s : State) (c : Nat) (h : s.buffer_size ≠ 0) : isr s c = some s := by
  simp [isr, h]

theorem single_isr_none_iff (s : State) (c : Nat) :
    isr s c = none ↔ ∃ i, storeIndex s = some i ∧ BUFFER_SIZE ≤ i := by
  unfold isr storeIndex
  by_cases h : s.buffer_size = 0
  · by_cases hc : s.counter < BUFFER_SIZE
    · simp only [h, hc, if_true]
      split <;> simp <;> omega
    · simp [h, hc]
      omega
  · simp [h]

theorem single_feed_busy (s : State) (bs : List Nat) (h : s.buffer_size ≠ 0) :
    feed isr s bs = some s := by
  induction bs with
  | nil => rfl
  | cons c cs ih => simp [feed, single_isr_busy s c h, ih]

/-- Bytes other than `COMPLETE` delivered to a free buffer are laid out from
`counter` on, and nothing is published. -/
theorem single_feed_payload (p : List Nat) (s : State) (hfree : s.buffer_size = 0)
    (hp : COMPLETE ∉ p) (hfit : s.counter + p.length ≤ BUFFER_SIZE)
    (hlen : s.buffer.length = BUFFER_SIZE) :
    feed isr s p = some
      { buffer := s.buffer.take s.counter ++ p ++ s.buffer.drop (s.counter + p.length),
        buffer_size := 0, counter := s.counter + p.length } := by
  induction p generalizing s with
  | nil =>
    cases s
    simp_all [feed]
  | cons c cs ih =>
    have hc : c ≠ COMPLETE := fun h => hp (by simp [h])
    have hcs : COMPLETE ∉ cs := fun h => hp (by simp [h])
    simp only [List.length_cons] at hfit
    have hlt : s.counter < BUFFER_SIZE := by omega
    have hstep : isr s c = some
        { buffer := s.buffer.set s.counter c, buffer_size := 0, counter := s.counter + 1 } := by
      simp [isr, hfree, hlt, hc]
    rw [feed, hstep, Option.some_bind, ih _ rfl hcs (by simp; omega) (by simpa using hlen)]
    simp only [Option.some.injEq, State.mk.injEq, true_and]
    refine ⟨set_then_overlay s.buffer s.counter c cs (by omega), ?_⟩
    simp
    omega

/-- C1, evaluated on the claim's own input.  After "AB" and 48 further bytes
other than `COMPLETE` the buffer is still free and `counter` is 50, so the next
call performs `buffer[counter++] = c` at index `BUFFER_SIZE`, outside the
array; "AB" followed by 60 such bytes therefore has no defined result. -/
theorem isr_stores_at_buffer_size :
    ∃ s, feed isr init ([65, 66] ++ List.replicate 48 67) = some s ∧
      s.buffer_size = 0 ∧ s.counter = 50 ∧ storeIndex s = some BUFFER_SIZE ∧
      isr s 67 = none ∧ feed isr init ([65, 66] ++ List.replicate 60 67) = none :=
  ⟨⟨[65, 66] ++ List.replicate 48 67, 0, 50⟩, by decide, rfl, rfl, by decide, by decide,
    by decide⟩

/-- C5: while a frame is pending (`buffer_size ≠ 0`) every sequence of bytes
delivered to `isr` leaves `buffer`, `buffer_size` and `counter` as they are;
and "A\nB\n" from the initial state, with no consumer step, ends with the
first line published: the buffer begins `'A','\n'`, `buffer_size` is 2, the
length of that line, and `counter` is 0. -/
theorem pending_frame_untouched (s : State) (bs : List Nat) (h : s.buffer_size ≠ 0) :
    feed isr s bs = some s ∧
    feed isr init [65, 10, 66, 10] =
      some { buffer := 65 :: 10 :: List.replicate 48 0, buffer_size := 2, counter := 0 } :=
  ⟨single_feed_busy s bs h, by decide⟩

/-- The C5 statement at the state that "A\n" leaves, with "B\n" delivered next. -/
theorem pending_frame_untouched_witness :
    feed isr init [65, 10] =
        some { buffer := 65 :: 10 :: List.replicate 48 0, buffer_size := 2, counter := 0 } ∧
      feed isr { buffer := 65 :: 10 :: List.replicate 48 0, buffer_size := 2, counter := 0 }
        [66, 10] =
        some { buffer := 65 :: 10 :: List.replicate 48 0, buffer_size := 2, counter := 0 } :=
  ⟨by decide,
    (pending_frame_untouched
      { buffer := 65 :: 10 :: List.replicate 48 0, buffer_size := 2, counter := 0 }
      [66, 10] (by decide)).1⟩

/-- C7 as stated fails: after "ABC\n" from the initial state the published
length `buffer_size` is 4, not 3, since the terminator is stored and counted. -/
theorem abc_line_length_is_not_three :
    ¬ ∃ s, feed isr init [65, 66, 67, 10] = some s ∧ s.buffer_size = [65, 66, 67].length := by
  rintro ⟨s, hs, hlen⟩
  have h : feed isr init [65, 66, 67, 10] =
      some { buffer := [65, 66, 67, 10] ++ List.replicate 46 0, buffer_size := 4,
             counter := 0 } := by decide
  rw [h] at hs
  cases hs
  exact absurd hlen (by decide)

/-- C7, amended: for every payload `p` without a `COMPLETE` byte that fits the
buffer together with its terminator, `p` followed by `COMPLETE` from the
initial state publishes one frame: the buffer holds `p` followed by
`COMPLETE`, `buffer_size` is `len p + 1` and `counter` is back to 0; before
the terminator arrives nothing is published. -/
theorem line_published_with_terminator (p : List Nat) (hp : COMPLETE ∉ p)
    (hfit : p.length < BUFFER_SIZE) :
    feed isr init (p ++ [COMPLETE]) = some
        { buffer := p ++ COMPLETE :: List.replicate (BUFFER_SIZE - (p.length + 1)) 0,
          buffer_size := p.length + 1, counter := 0 } ∧
      ∀ k, k ≤ p.length → ∃ t, feed isr init (p.take k) = some t ∧ t.buffer_size = 0 := by
  constructor
  · have h := single_feed_payload p init rfl hp (by simp [init]; omega) (by simp [init])
    rw [feed_append, h]
    have hdrop : List.drop p.length (List.replicate BUFFER_SIZE 0)
        = 0 :: List.replicate (BUFFER_SIZE - (p.length + 1)) 0 := by
      rw [List.drop_replicate]
      have : BUFFER_SIZE - p.length = (BUFFER_SIZE - (p.length + 1)) + 1 := by omega
      rw [this, List.replicate_succ]
    simp [init, feed, isr, hfit, hdrop]
  · intro k hk
    have hp2 : COMPLETE ∉ p.take k := fun hmem => hp (List.mem_of_mem_take hmem)
    have h := single_feed_payload (p.take k) init rfl hp2 (by simp [init]; omega) (by simp [init])
    exact ⟨_, h, rfl⟩

/-- The amended C7 statement at the payload "ABC". -/
theorem line_published_with_terminator_witness :
    feed isr init ([65, 66, 67] ++ [COMPLETE]) = some
        { buffer := [65, 66, 67] ++ COMPLETE :: List.replicate (BUFFER_SIZE - (3 + 1)) 0,
          buffer_size := 3 + 1, counter := 0 } :=
  (line_published_with_terminator [65, 66, 67] (by decide) (by decide)).1

end Single

/-! ### Checksum framing -/

/-- On bytes, the `uint8_t` accumulation `xor_calculated ^= c` is plain XOR. -/
theorem foldl_xor_byte (p : List Nat) (x : Nat) (hx : x < 256) (hp : ∀ b ∈ p, b < 256) :
    p.foldl (fun a b => (a ^^^ b) % 256) x = p.foldl (fun a b => a ^^^ b) x ∧
      p.foldl (fun a b => a ^^^ b) x < 256 := by
  induction p generalizing x with
  | nil => exact ⟨rfl, hx⟩
  | cons c cs ih =>
    have hc : c < 256 := hp c (by simp)
    have hxc : x ^^^ c < 256 := Nat.xor_lt_two_pow (n := 8) hx hc
    simp only [List.foldl_cons, Nat.mod_eq_of_lt hxc]
    exact ih (x ^^^ c) hxc (fun b hb => hp b (by simp [hb]))

theorem xorAll_lt (p : List Nat) (hp : ∀ b ∈ p, b < 256) : xorAll p < 256 :=
  (foldl_xor_byte p 0 (by decide) hp).2

set_option maxRecDepth 100000 in
/-- The two nibbles of a byte, combined as `isr` combines them, give the byte. -/
theorem nibbles_combine : ∀ x, x < 256 → (((x / 16) <<< 4) % 256 ||| x % 16) % 256 = x := by
  decide

theorem hexDigit_decoded : ∀ n, n < 16 → hex_to_byte (hexDigit n) = n := by
  decide

namespace Checksum

theorem checksum_isr_none_iff (hex : Nat → Nat) (s : State) (c : Nat) :
    isr hex s c = none ↔ ∃ i, storeIndex s c = some i ∧ BUFFER_SIZE ≤ i := by
  unfold isr storeIndex
  cases hs : s.current_status <;> simp only [] <;> repeat (split <;> simp_all <;> try omega)

/-- The start delimiter `'$'` restarts frame assembly from every status. -/
theorem checksum_isr_dollar (hex : Nat → Nat) (s : State) (h : hex 36 > 0x0f) :
    isr hex s 36 = some
      { s with current_status := status.WAITING_DATA, counter := 0, xor_calculated := 0 } := by
  obtain ⟨b, n, k, st, xc, xg, en⟩ := s
  cases st <;> simp [isr, h]

/-- Payload bytes delivered in `WAITING_DATA` are laid out from `counter` on
and folded into `xor_calculated`. -/
theorem checksum_feed_payload (hex : Nat → Nat) (p : List Nat) (s : State)
    (hs : s.current_status = status.WAITING_DATA) (hp : ∀ b ∈ p, b ≠ 36 ∧ b ≠ 42)
    (hfit : s.counter + p.length ≤ BUFFER_SIZE) (hlen : s.buffer.length = BUFFER_SIZE) :
    feed (isr hex) s p = some
      { s with
        buffer := s.buffer.take s.counter ++ p ++ s.buffer.drop (s.counter + p.length),
        counter := s.counter + p.length,
        xor_calculated := p.foldl (fun a b => (a ^^^ b) % 256) s.xor_calculated } := by
  induction p generalizing s with
  | nil =>
    cases s
    simp_all [feed]
  | cons c cs ih =>
    obtain ⟨h36, h42⟩ := hp c (by simp)
    have hcs : ∀ b ∈ cs, b ≠ 36 ∧ b ≠ 42 := fun b hb => hp b (by simp [hb])
    simp only [List.length_cons] at hfit
    have hlt : s.counter < BUFFER_SIZE := by omega
    have hstep : isr hex s c = some
        { s with buffer := s.buffer.set s.counter c, counter := s.counter + 1,
                 xor_calculated := (s.xor_calculated ^^^ c) % 256 } := by
      simp [isr, hs, h36, h42, hlt]
    have ih2 := ih
      { s with buffer := s.buffer.set s.counter c, counter := s.counter + 1,
               xor_calculated := (s.xor_calculated ^^^ c) % 256 }
      hs hcs (by simp only []; omega) (by simpa using hlen)
    rw [feed, hstep, Option.some_bind, ih2]
    simp only [Option.some.injEq, State.mk.injEq, true_and, List.foldl_cons, and_true]
    refine ⟨set_then_overlay s.buffer s.counter c cs (by omega), ?_⟩
    simp
    omega

/-- C2, evaluated: `WAITING_DATA` has no capacity check.  After `'$'` and 50
payload bytes the slot is full (`counter = BUFFER_SIZE`), and the next payload
byte is stored by `buffer[counter++] = c` at index `BUFFER_SIZE`, outside the
array. -/
theorem isr_stores_payload_at_buffer_size :
    ∃ s, feed (isr hex_to_byte) init (36 :: List.replicate 50 65) = some s ∧
      s.current_status = status.WAITING_DATA ∧ s.counter = BUFFER_SIZE ∧
      storeIndex s 65 = some BUFFER_SIZE ∧ isr hex_to_byte s 65 = none :=
  ⟨{ buffer := List.replicate 50 65, buffer_size := 0, counter := 50,
     current_status := status.WAITING_DATA, xor_calculated := 0, xor_got := 0,
     isr_enabled := true }, by decide, rfl, rfl, by decide, by decide⟩

/-- C3: from every decoder state, `'$'`, a payload `p` of at most
`BUFFER_SIZE` bytes holding neither `'$'` nor `'*'`, then `'*'` and the two hex
digits (high nibble first) of the XOR of the bytes of `p` end with
`buffer[0..len p) = p`, `buffer_size = len p`, status `WAITING_START` and the
interrupt disabled.  `hex_to_byte` is any function that decodes each hex digit
to its value and `'$'` to a value above `0x0f`. -/
theorem well_formed_frame_published (hex : Nat → Nat) (s : State) (p : List Nat)
    (hdollar : hex 36 > 0x0f) (hhex : ∀ n, n < 16 → hex (hexDigit n) = n)
    (hbytes : ∀ b ∈ p, b < 256) (hp : ∀ b ∈ p, b ≠ 36 ∧ b ≠ 42)
    (hfit : p.length ≤ BUFFER_SIZE) (hlen : s.buffer.length = BUFFER_SIZE) :
    ∃ t, feed (isr hex) s
          ([36] ++ p ++ [42, hexDigit (xorAll p / 16), hexDigit (xorAll p % 16)]) = some t ∧
      t.buffer.take p.length = p ∧ t.buffer_size = p.length ∧
      t.current_status = status.WAITING_START ∧ t.isr_enabled = false := by
  have hx : xorAll p < 256 := xorAll_lt p hbytes
  have hfold : p.foldl (fun a b => (a ^^^ b) % 256) 0 = xorAll p :=
    (foldl_xor_byte p 0 (by decide) hbytes).1
  have hhi : hex (hexDigit (xorAll p / 16)) = xorAll p / 16 := hhex _ (by omega)
  have hlo : hex (hexDigit (xorAll p % 16)) = xorAll p % 16 := hhex _ (by omega)
  have hpay := checksum_feed_payload hex p
    { s with current_status := status.WAITING_DATA, counter := 0, xor_calculated := 0 }
    rfl hp (by simpa using hfit) (by simpa using hlen)
  have hcomb := nibbles_combine (xorAll p) hx
  refine ⟨{ s with
      buffer := p ++ s.buffer.drop p.length,
      buffer_size := p.length, counter := p.length,
      current_status := status.WAITING_START,
      xor_calculated := xorAll p, xor_got := xorAll p, isr_enabled := false }, ?_, ?_, rfl, rfl, rfl⟩
  · rw [feed_append, feed_append]
    simp only [feed, checksum_isr_dollar hex s hdollar, Option.some_bind, hpay, hfold]
    have h16a : ¬ (xorAll p / 16 > 15) := by omega
    have h16b : ¬ (xorAll p % 16 > 15) := by omega
    simp [isr, hhi, hlo, h16a, h16b, hcomb]
  · simp

/-- The C3 statement at the payload "GPS,1,2", from the initial state, with the
modelled `hex_to_byte`. -/
theorem well_formed_frame_published_witness :
    ∃ t, feed (isr hex_to_byte) init
          ([36] ++ [71, 80, 83, 44, 49, 44, 50] ++
            [42, hexDigit (xorAll [71, 80, 83, 44, 49, 44, 50] / 16),
              hexDigit (xorAll [71, 80, 83, 44, 49, 44, 50] % 16)]) = some t ∧
      t.buffer.take [71, 80, 83, 44, 49, 44, 50].length = [71, 80, 83, 44, 49, 44, 50] ∧
      t.buffer_size = [71, 80, 83, 44, 49, 44, 50].length ∧
      t.current_status = status.WAITING_START ∧ t.isr_enabled = false :=
  well_formed_frame_published hex_to_byte init [71, 80, 83, 44, 49, 44, 50]
    (by decide) hexDigit_decoded (by decide) (by decide) (by decide) (by decide)

/-- C4: in `WAITING_CRC2`, a byte that decodes to a valid nibble `n` with
`(xor_got | n)` different from `xor_calculated` publishes nothing: `buffer`,
`buffer_size` and the interrupt-enable flag keep their values (`disableISR` is
not called), and the status becomes `WAITING_START`.  `xor_got` is a
`uint8_t`, so below 256. -/
theorem crc_mismatch_not_published (hex : Nat → Nat) (s : State) (c : Nat)
    (hs : s.current_status = status.WAITING_CRC2) (hn : hex c ≤ 0x0f)
    (hgot : s.xor_got < 256) (hne : s.xor_got ||| hex c ≠ s.xor_calculated) :
    isr hex s c = some
      { s with xor_got := s.xor_got ||| hex c, current_status := status.WAITING_START } := by
  have hor : s.xor_got ||| hex c < 256 :=
    Nat.or_lt_two_pow (n := 8) hgot (by omega)
  have hnot : ¬ hex c > 15 := by omega
  simp [isr, hs, hnot, Nat.mod_eq_of_lt hor, hne]

/-- The C4 statement at `xor_got = 0x40`, `xor_calculated = 0x41` and the byte
`'2'`. -/
theorem crc_mismatch_not_published_witness :
    isr hex_to_byte
        { buffer := List.replicate BUFFER_SIZE 0, buffer_size := 0, counter := 1,
          current_status := status.WAITING_CRC2, xor_calculated := 65, xor_got := 64,
          isr_enabled := true } 50
      = some
        { buffer := List.replicate BUFFER_SIZE 0, buffer_size := 0, counter := 1,
          current_status := status.WAITING_START, xor_calculated := 65, xor_got := 64 ||| 2,
          isr_enabled := true } :=
  crc_mismatch_not_published hex_to_byte
    { buffer := List.replicate BUFFER_SIZE 0, buffer_size := 0, counter := 1,
      current_status := status.WAITING_CRC2, xor_calculated := 65, xor_got := 64,
      isr_enabled := true } 50 rfl (by decide) (by decide) (by decide)

/-- C8: in `WAITING_DATA`, `WAITING_CRC1` and `WAITING_CRC2`, whatever the
counter and checksum values, `isr('$')` gives status `WAITING_DATA`,
`counter = 0`, `xor_calculated = 0` and changes nothing else, so nothing is
published.  `hex_to_byte('$')` is assumed above `0x0f`. -/
theorem start_delimiter_restarts (hex : Nat → Nat) (s : State)
    (hs : s.current_status = status.WAITING_DATA ∨ s.current_status = status.WAITING_CRC1 ∨
      s.current_status = status.WAITING_CRC2)
    (hdollar : hex 36 > 0x0f) :
    isr hex s 36 = some
      { s with current_status := status.WAITING_DATA, counter := 0, xor_calculated := 0 } := by
  rcases hs with hs | hs | hs <;> simp [isr, hs, hdollar]

/-- The C8 statement at a state in `WAITING_CRC2`. -/
theorem start_delimiter_restarts_witness :
    isr hex_to_byte
        { buffer := List.replicate BUFFER_SIZE 0, buffer_size := 0, counter := 3,
          current_status := status.WAITING_CRC2, xor_calculated := 65, xor_got := 64,
          isr_enabled := true } 36
      = some
        { buffer := List.replicate BUFFER_SIZE 0, buffer_size := 0, counter := 0,
          current_status := status.WAITING_DATA, xor_calculated := 0, xor_got := 64,
          isr_enabled := true } :=
  start_delimiter_restarts hex_to_byte
    { buffer := List.replicate BUFFER_SIZE 0, buffer_size := 0, counter := 3,
      current_status := status.WAITING_CRC2, xor_calculated := 65, xor_got := 64,
      isr_enabled := true } (Or.inr (Or.inr rfl)) (by decide)

/-- In `WAITING_CRC2` a byte that is neither a valid nibble nor `'$'` changes
nothing, the status included: the branch of line 212 has no `else`. -/
theorem checksum_isr_crc2_invalid (hex : Nat → Nat) (s : State) (c : Nat)
    (hs : s.current_status = status.WAITING_CRC2) (hn : hex c > 0x0f) (hc : c ≠ 36) :
    isr hex s c = some s := by
  simp [isr, hs, hn, hc]

/-- C9, evaluated: after "$A*4" the decoder is in `WAITING_CRC2`; the byte
`'G'` is neither a hex digit nor `'$'`, and `isr('G')` leaves the state as it
is, so the status is still `WAITING_CRC2`, not `WAITING_START`. -/
theorem crc2_invalid_nibble_keeps_status :
    ∃ s, feed (isr hex_to_byte) init [36, 65, 42, 52] = some s ∧
      s.current_status = status.WAITING_CRC2 ∧ hex_to_byte 71 > 0x0f ∧
      isr hex_to_byte s 71 = some s ∧
      (feed (isr hex_to_byte) init [36, 65, 42, 52, 71]).map State.current_status
        = some status.WAITING_CRC2 :=
  ⟨{ buffer := 65 :: List.replicate 49 0, buffer_size := 0, counter := 1,
     current_status := status.WAITING_CRC2, xor_calculated := 65, xor_got := 64,
     isr_enabled := true }, by decide, rfl, by decide, by decide, by decide⟩

/-- C10: in `WAITING_CRC1`, a byte that is neither a valid nibble nor `'$'`
gives status `WAITING_START` and changes nothing else, so nothing is
published; a byte that decodes to a valid nibble `n` gives status
`WAITING_CRC2` with `xor_got = n * 16`. -/
theorem crc1_nibble (hex : Nat → Nat) (s : State) (c : Nat)
    (hs : s.current_status = status.WAITING_CRC1) :
    (hex c > 0x0f → c ≠ 36 →
        isr hex s c = some { s with current_status := status.WAITING_START }) ∧
      (hex c ≤ 0x0f →
        isr hex s c = some
          { s with xor_got := hex c * 16, current_status := status.WAITING_CRC2 }) := by
  constructor
  · intro hn hc
    simp [isr, hs, hn, hc]
  · intro hn
    have hnot : ¬ hex c > 15 := by omega
    have hsh : (hex c <<< 4) % 256 = hex c * 16 := by
      rw [Nat.shiftLeft_eq]
      omega
    simp [isr, hs, hnot, hsh]

/-- The C10 statement at the bytes `'G'` (no hex digit) and `'4'`. -/
theorem crc1_nibble_witness :
    isr hex_to_byte
        { buffer := List.replicate BUFFER_SIZE 0, buffer_size := 0, counter := 1,
          current_status := status.WAITING_CRC1, xor_calculated := 65, xor_got := 0,
          isr_enabled := true } 71
      = some
        { buffer := List.replicate BUFFER_SIZE 0, buffer_size := 0, counter := 1,
          current_status := status.WAITING_START, xor_calculated := 65, xor_got := 0,
          isr_enabled := true } ∧
    isr hex_to_byte
        { buffer := List.replicate BUFFER_SIZE 0, buffer_size := 0, counter := 1,
          current_status := status.WAITING_CRC1, xor_calculated := 65, xor_got := 0,
          isr_enabled := true } 52
      = some
        { buffer := List.replicate BUFFER_SIZE 0, buffer_size := 0, counter := 1,
          current_status := status.WAITING_CRC2, xor_calculated := 65,
          xor_got := hex_to_byte 52 * 16, isr_enabled := true } :=
  ⟨(crc1_nibble hex_to_byte
      { buffer := List.replicate BUFFER_SIZE 0, buffer_size := 0, counter := 1,
        current_status := status.WAITING_CRC1, xor_calculated := 65, xor_got := 0,
        isr_enabled := true } 71 rfl).1 (by decide) (by decide),
    (crc1_nibble hex_to_byte
      { buffer := List.replicate BUFFER_SIZE 0, buffer_size := 0, counter := 1,
        current_status := status.WAITING_CRC1, xor_calculated := 65, xor_got := 0,
        isr_enabled := true } 52 rfl).2 (by decide)⟩

end Checksum

/-! ### Double buffer -/

namespace Double

theorem double_setSlot_buffer_ready (s : State) (b : Bool) (a : smart_array) :
    (setSlot s b a).buffer_ready = s.buffer_ready := by
  cases b <;> rfl

theorem double_setSlot_current_buffer (s : State) (b : Bool) (a : smart_array) :
    (setSlot s b a).current_buffer = s.current_buffer := by
  cases b <;> rfl

end Double

/-! ### Checksum framing: consumer side and trailer -/

set_option maxRecDepth 100000 in
/-- A high and a low nibble, combined as `isr` combines them, give the byte
with these two nibbles, without overflow. -/
theorem nibble_pair : ∀ h, h < 16 → ∀ l, l < 16 →
    ((h <<< 4) % 256 ||| l) % 256 = h * 16 + l ∧ h * 16 + l < 256 ∧
      (h * 16 + l) / 16 = h ∧ (h * 16 + l) % 16 = l := by
  decide

namespace Checksum

/-- The consumer body never writes `buffer_size`. -/
theorem checksum_main_buffer_size (s : State) : (main s).buffer_size = s.buffer_size := by
  unfold main
  split <;> rfl

/-- C11, evaluated: after the frame "$GPS,1,2*47" the readiness test
`buffer_size != 0` holds (`buffer_size = 7`); the consumer body re-enables the
interrupt and leaves `buffer_size` at 7, so the readiness test still holds
after it, and after running it once more. -/
theorem consumer_leaves_frame_ready :
    ∃ s, feed (isr hex_to_byte) init [36, 71, 80, 83, 44, 49, 44, 50, 42, 52, 55] = some s ∧
      s.buffer_size = 7 ∧ s.isr_enabled = false ∧
      (main s).isr_enabled = true ∧ (main s).buffer_size = 7 ∧
      (main (main s)).buffer_size = 7 :=
  ⟨{ buffer := [71, 80, 83, 44, 49, 44, 50] ++ List.replicate 43 0, buffer_size := 7,
     counter := 7, current_status := status.WAITING_START, xor_calculated := 71,
     xor_got := 71, isr_enabled := false },
    by decide, rfl, rfl, by decide, by decide, by decide⟩

/-- C12, evaluated: the empty-payload frame `'$','*','0','0'` from the initial
state is accepted (the checksums agree and `disableISR` is called) with
`buffer_size = counter = 0`, so the readiness test `buffer_size != 0` is false
and the consumer body does nothing: the interrupt stays disabled. -/
theorem empty_frame_not_observable :
    ∃ s, feed (isr hex_to_byte) init [36, 42, 48, 48] = some s ∧
      s.xor_got = s.xor_calculated ∧ s.isr_enabled = false ∧ s.buffer_size = 0 ∧
      main s = s :=
  ⟨{ buffer := List.replicate 50 0, buffer_size := 0, counter := 0,
     current_status := status.WAITING_START, xor_calculated := 0, xor_got := 0,
     isr_enabled := false },
    by decide, rfl, rfl, rfl, by decide⟩

/-- C13: from `WAITING_CRC1`, whatever `xor_got` held, the two hex digits of a
byte `b` (high nibble first) leave `xor_got = b`, and it is `b` that is
compared with `xor_calculated`: the frame is published exactly when they are
equal.  Equivalently, for nibbles `h` and `l` the `uint8_t` value
`(h << 4) | l` is `16 h + l`, below 256, with high nibble `h` and low nibble
`l`.  `hex_to_byte` is any function that decodes each hex digit to its
value. -/
theorem trailer_round_trip (hex : Nat → Nat) (s : State) (b : Nat)
    (hs : s.current_status = status.WAITING_CRC1) (hb : b < 256)
    (hhex : ∀ n, n < 16 → hex (hexDigit n) = n) :
    (∃ t, feed (isr hex) s [hexDigit (b / 16), hexDigit (b % 16)] = some t ∧
        t.xor_got = b ∧ t.current_status = status.WAITING_START ∧
        t.buffer_size = (if b = s.xor_calculated then s.counter else s.buffer_size)) ∧
      ∀ h, h < 16 → ∀ l, l < 16 →
        ((h <<< 4) % 256 ||| l) % 256 = h * 16 + l ∧ h * 16 + l < 256 ∧
          (h * 16 + l) / 16 = h ∧ (h * 16 + l) % 16 = l := by
  refine ⟨?_, nibble_pair⟩
  have hhi : hex (hexDigit (b / 16)) = b / 16 := hhex _ (by omega)
  have hlo : hex (hexDigit (b % 16)) = b % 16 := hhex _ (by omega)
  have h16a : ¬ (b / 16 > 15) := by omega
  have h16b : ¬ (b % 16 > 15) := by omega
  have hcomb := nibbles_combine b hb
  by_cases heq : b = s.xor_calculated
  · refine ⟨{ s with xor_got := b, current_status := status.WAITING_START,
                     buffer_size := s.counter, isr_enabled := false }, ?_, rfl, rfl, ?_⟩
    · simp [feed, isr, hs, hhi, hlo, h16a, h16b, hcomb, heq.symm]
    · simp [heq]
  · refine ⟨{ s with xor_got := b, current_status := status.WAITING_START }, ?_, rfl, rfl, ?_⟩
    · simp [feed, isr, hs, hhi, hlo, h16a, h16b, hcomb, heq]
    · simp [heq]

/-- The C13 statement at the byte `0x47` and a state whose `xor_got` is
`0xff`. -/
theorem trailer_round_trip_witness :
    ∃ t, feed (isr hex_to_byte)
          { buffer := List.replicate BUFFER_SIZE 0, buffer_size := 0, counter := 7,
            current_status := status.WAITING_CRC1, xor_calculated := 71, xor_got := 255,
            isr_enabled := true }
          [hexDigit (71 / 16), hexDigit (71 % 16)] = some t ∧
      t.xor_got = 71 ∧ t.current_status = status.WAITING_START ∧
      t.buffer_size = (if 71 = 71 then 7 else 0) :=
  (trailer_round_trip hex_to_byte
    { buffer := List.replicate BUFFER_SIZE 0, buffer_size := 0, counter := 7,
      current_status := status.WAITING_CRC1, xor_calculated := 71, xor_got := 255,
      isr_enabled := true } 71 rfl (by decide) hexDigit_decoded).1

end Checksum

/-! ### Double buffer: length of the current slot -/

namespace Double

/-- A byte other than `COMPLETE` takes the `else` of line 263 and leaves the
current slot with `buffer_size = 0`. -/
theorem double_isr_byte_resets (s t : State) (c : Nat) (hc : c ≠ COMPLETE)
    (h : isr s c = some t) :
    t.current_buffer = s.current_buffer ∧ (slot t s.current_buffer).buffer_size = 0 := by
  unfold isr at h
  simp only [double_setSlot_buffer_ready, double_setSlot_current_buffer] at h
  by_cases hlt : (slot s s.current_buffer).buffer_size < BUFFER_SIZE
  · simp only [hlt, if_true, hc, if_false, Option.some.injEq] at h
    subst h
    refine ⟨by simp only [double_setSlot_current_buffer], ?_⟩
    cases s.current_buffer <;> rfl
  · simp [hlt] at h

/-- C15, evaluated: from the initial state, with no slot pending
(`buffer_ready = -1`), the byte `'A'` is stored in `data[0]` of slot 0 and the
length of slot 0 is reset to 0; "AB\n" then publishes slot 0 with
`buffer_size = 1` and data beginning with `'\n'`, not with `buffer_size = 3`
and data "AB\n". -/
theorem byte_resets_current_length :
    feed isr init [65] = some
        { buffers := (⟨65 :: List.replicate 49 0, 0⟩, ⟨List.replicate 50 0, 0⟩),
          buffer_ready := -1, current_buffer := false } ∧
      feed isr init [65, 66, 10] = some
        { buffers := (⟨10 :: List.replicate 49 0, 1⟩, ⟨List.replicate 50 0, 0⟩),
          buffer_ready := 0, current_buffer := true } :=
  ⟨by decide, by decide⟩

end Double

/-! ### Pause-intake single buffer -/

namespace Pause

/-- C16, evaluated: the lines "A\n" and "B\n" with one consumer step between
them.  The pause-intake `isr` never resets `counter`, so with either consumer
body the second publication has `buffer_size = 4` and the buffer begins
"A\nB\n"; the first sketch publishes `buffer_size = 2` and a buffer that
begins "B\n". -/
theorem second_line_appended :
    run isr main init
        [Event.byte 65, Event.byte 10, Event.consume, Event.byte 66, Event.byte 10] = some
        { buffer := [65, 10, 66, 10] ++ List.replicate 46 0, buffer_size := 4, counter := 4,
          isr_enabled := false } ∧
      run isr main_by_size init
        [Event.byte 65, Event.byte 10, Event.consume, Event.byte 66, Event.byte 10] = some
        { buffer := [65, 10, 66, 10] ++ List.replicate 46 0, buffer_size := 4, counter := 4,
          isr_enabled := false } ∧
      run Single.isr Single.main Single.init
        [Event.byte 65, Event.byte 10, Event.consume, Event.byte 66, Event.byte 10] = some
        { buffer := [66, 10] ++ List.replicate 48 0, buffer_size := 2, counter := 0 } :=
  ⟨by decide, by decide, by decide⟩

end Pause

/-! ### Ring buffer -/

namespace Ring

theorem ring_isr_none_iff (s : smart_array) (c : Nat) :
    isr s c = none ↔ ∃ i, storeIndex s = some i ∧ BUFFER_SIZE ≤ i := by
  unfold isr storeIndex
  by_cases h : s.available ≥ BUFFER_SIZE
  · simp [h]
  · by_cases hi : (s.buffer_start + s.available) % (SIZE_MAX + 1) < BUFFER_SIZE
    · simp [h, hi]
    · simp only [h, hi, if_false, true_iff]
      exact ⟨_, rfl, by omega⟩

/-- The `size_t` sum wraps: with `buffer_start = SIZE_MAX` and `available = 1`
the byte is stored at `data[0]`. -/
theorem ring_isr_wraps :
    isr { data := [65, 66], buffer_start := SIZE_MAX, available := 1 } 67 = some
      { data := [67, 66], buffer_start := SIZE_MAX, available := 1 } := by
  decide

end Ring

/-! ### Interleavings and invariants -/

theorem run_append {σ : Type} (isr : σ → Nat → Option σ) (main : σ → σ) (s : σ)
    (a b : List Event) :
    run isr main s (a ++ b) = (run isr main s a).bind (fun t => run isr main t b) := by
  induction a generalizing s with
  | nil => simp [run]
  | cons e es ih =>
    cases e with
    | byte c =>
      simp only [List.cons_append, run]
      cases isr s c with
      | none => simp
      | some t => simpa using ih t
    | consume =>
      simp only [List.cons_append, run]
      exact ih (main s)

theorem take_succ_set (l : List Nat) (k c : Nat) (hk : k < l.length) :
    (l.set k c).take (k + 1) = l.take k ++ [c] := by
  have h := set_then_overlay l k c [] hk
  simp only [List.append_nil, List.length_nil, Nat.add_zero, List.length_cons] at h
  have hlen : ((l.set k c).take (k + 1)).length = (l.take k ++ [c]).length := by
    simp [List.length_take]
    omega
  exact List.append_inj_left h hlen

theorem lineAfter_cons (line : List Nat) (c : Nat) (bs : List Nat) :
    lineAfter line (c :: bs) = lineAfter (if c = COMPLETE then [] else line ++ [c]) bs := rfl

namespace Loss

theorem loss_isr_tracks (s t : State) (c : Nat) (line : List Nat) (hs : Tracks s line)
    (h : isr s c = some t) : Tracks t (if c = COMPLETE then [] else line ++ [c]) := by
  obtain ⟨hlen, herr, hbusy, hline⟩ := hs
  unfold isr at h
  by_cases he : s.error_line = true
  · have h0 := herr he
    by_cases hc : c = COMPLETE
    · simp only [he, hc, if_true, Option.some.injEq] at h
      subst h
      simp [Tracks, hlen, h0, hc]
    · simp only [he, hc, if_true, if_false, Option.some.injEq] at h
      subst h
      simp [Tracks, hlen, h0, he, hc]
  · have he2 : s.error_line = false := by simpa using he
    obtain ⟨hcnt, htake⟩ := hline he2
    by_cases hfree : s.buffer_size = 0
    · by_cases hlt : s.counter < BUFFER_SIZE
      · by_cases hc : c = COMPLETE
        · simp only [he2, hfree, hlt, hc, Bool.false_eq_true, if_true, if_false, Option.some.injEq] at h
          subst h
          simp [Tracks, hlen, he2, hc]
        · simp only [he2, hfree, hlt, hc, Bool.false_eq_true, if_true, if_false, Option.some.injEq] at h
          subst h
          have hk : s.counter < s.buffer.length := by omega
          have ht := take_succ_set s.buffer s.counter c hk
          rw [htake] at ht
          refine ⟨by simpa using hlen, by simp, by simp, fun _ => ⟨by simp [hcnt, hc], ?_⟩⟩
          simpa [hc] using ht
      · simp [he2, hfree, hlt] at h
    · simp only [he2, hfree, Bool.false_eq_true, if_false, Option.some.injEq] at h
      subst h
      simp [Tracks, hlen, hbusy hfree]

theorem loss_main_tracks (s : State) (line : List Nat) (hs : Tracks s line) :
    Tracks (main s) line := by
  obtain ⟨hlen, herr, hbusy, hline⟩ := hs
  unfold main
  split
  · exact ⟨hlen, herr, fun h => absurd rfl h, hline⟩
  · exact ⟨hlen, herr, hbusy, hline⟩

theorem loss_run_tracks (es : List Event) (s t : State) (line : List Nat)
    (hs : Tracks s line) (h : run isr main s es = some t) :
    Tracks t (lineAfter line (bytes es)) := by
  induction es generalizing s line with
  | nil =>
    simp only [run, Option.some.injEq] at h
    subst h
    exact hs
  | cons e es ih =>
    cases e with
    | byte c =>
      simp only [run] at h
      cases hstep : isr s c with
      | none => simp [hstep] at h
      | some u =>
        rw [hstep, Option.some_bind] at h
        simp only [bytes, lineAfter_cons]
        exact ih u _ (loss_isr_tracks s u c line hs hstep) h
    | consume =>
      simp only [run] at h
      simp only [bytes]
      exact ih (main s) line (loss_main_tracks s line hs) h

theorem loss_init_tracks : Tracks init [] := by
  simp [Tracks, init]

/-- A publication stores the terminator behind the line in progress. -/
theorem loss_isr_publishes (s t : State) (c : Nat) (line : List Nat) (hs : Tracks s line)
    (h : isr s c = some t) (hfree : s.buffer_size = 0) (hpub : t.buffer_size ≠ 0) :
    c = COMPLETE ∧ t.buffer_size = line.length + 1 ∧
      t.buffer.take t.buffer_size = line ++ [COMPLETE] := by
  obtain ⟨hlen, herr, hbusy, hline⟩ := hs
  unfold isr at h
  by_cases he : s.error_line = true
  · by_cases hc : c = COMPLETE
    · simp only [he, hc, if_true, Option.some.injEq] at h
      subst h
      exact absurd hfree hpub
    · simp only [he, hc, if_true, if_false, Option.some.injEq] at h
      subst h
      exact absurd hfree hpub
  · have he2 : s.error_line = false := by simpa using he
    obtain ⟨hcnt, htake⟩ := hline he2
    by_cases hlt : s.counter < BUFFER_SIZE
    · by_cases hc : c = COMPLETE
      · simp only [he2, hfree, hlt, hc, Bool.false_eq_true, if_true, if_false, Option.some.injEq] at h
        subst h
        have hk : s.counter < s.buffer.length := by omega
        refine ⟨hc, by simp [hcnt], ?_⟩
        simp only []
        rw [take_succ_set s.buffer s.counter COMPLETE hk, htake]
      · simp only [he2, hfree, hlt, hc, Bool.false_eq_true, if_true, if_false, Option.some.injEq] at h
        subst h
        exact absurd rfl hpub
    · simp [he2, hfree, hlt] at h

theorem loss_isr_defined (s : State) (c : Nat) (line : List Nat) (hs : Tracks s line)
    (hfit : line.length < BUFFER_SIZE) : ∃ t, isr s c = some t := by
  obtain ⟨hlen, herr, hbusy, hline⟩ := hs
  unfold isr
  by_cases he : s.error_line = true
  · by_cases hc : c = COMPLETE <;> simp [he, hc]
  · have he2 : s.error_line = false := by simpa using he
    obtain ⟨hcnt, htake⟩ := hline he2
    have hlt : s.counter < BUFFER_SIZE := by omega
    by_cases hfree : s.buffer_size = 0
    · by_cases hc : c = COMPLETE <;> simp [he2, hfree, hlt, hc]
    · simp [he2, hfree]

theorem loss_run_defined (es : List Event) (s : State) (line : List Nat) (hs : Tracks s line)
    (hfit : fitsFrom line.length es = true) : ∃ t, run isr main s es = some t := by
  induction es generalizing s line with
  | nil => exact ⟨s, rfl⟩
  | cons e es ih =>
    cases e with
    | byte c =>
      simp only [fitsFrom, Bool.and_eq_true, decide_eq_true_eq] at hfit
      obtain ⟨u, hu⟩ := loss_isr_defined s c line hs hfit.1
      have hu2 := loss_isr_tracks s u c line hs hu
      have hfit2 : fitsFrom (if c = COMPLETE then [] else line ++ [c]).length es = true := by
        have h2 := hfit.2
        by_cases hc : c = COMPLETE
        · simpa [hc] using h2
        · simpa [hc] using h2
      obtain ⟨t, ht⟩ := ih u _ hu2 hfit2
      exact ⟨t, by simp only [run, hu, Option.some_bind, ht]⟩
    | consume =>
      simp only [fitsFrom] at hfit
      obtain ⟨t, ht⟩ := ih (main s) line (loss_main_tracks s line hs) hfit
      exact ⟨t, by simp only [run, ht]⟩

end Loss

namespace Loss

/-- C14: for every interleaving `es` of delivered bytes and consumer releases
from the initial state and every next byte `c`, if `isr(c)` publishes a frame
(`buffer_size` goes from zero to non-zero) then `c` is `COMPLETE` and the
published buffer is exactly the whole line that `c` ends: all bytes of the
stream from just after the previous `COMPLETE` (or from its start) up to and
including `c`; so no line that lost bytes is published.  And when every line,
its terminator included, is at most `BUFFER_SIZE` bytes long, every call
stores inside the buffer. -/
theorem published_frame_is_whole_line (es : List Event) (c : Nat) :
    (∀ s t, run isr main init es = some s → isr s c = some t →
        s.buffer_size = 0 → t.buffer_size ≠ 0 →
        c = COMPLETE ∧ t.buffer_size = (currentLine (bytes es)).length + 1 ∧
          t.buffer.take t.buffer_size = currentLine (bytes es) ++ [COMPLETE]) ∧
      (fitsFrom 0 (es ++ [Event.byte c]) = true →
        ∃ s t, run isr main init es = some s ∧ isr s c = some t) := by
  constructor
  · intro s t hrun hstep hfree hpub
    have htr : Tracks s (currentLine (bytes es)) :=
      loss_run_tracks es init s [] loss_init_tracks hrun
    exact loss_isr_publishes s t c _ htr hstep hfree hpub
  · intro hfit
    obtain ⟨t, ht⟩ := loss_run_defined (es ++ [Event.byte c]) init [] loss_init_tracks hfit
    rw [run_append] at ht
    cases hrun : run isr main init es with
    | none => simp [hrun] at ht
    | some s =>
      rw [hrun, Option.some_bind] at ht
      cases hstep : isr s c with
      | none => simp [run, hstep] at ht
      | some u => exact ⟨s, u, rfl, hstep⟩

/-- The C14 statement at the stream "A\nB\nD\n" with one release after `'B'`:
the line "B\n" loses its first byte to the pending frame and is skipped, and
the publication at the last byte holds the whole line "D\n". -/
theorem published_frame_is_whole_line_witness :
    run isr main init
        [Event.byte 65, Event.byte 10, Event.byte 66, Event.consume, Event.byte 10,
          Event.byte 68] = some
        { buffer := [68, 10] ++ List.replicate 48 0, buffer_size := 0, counter := 1,
          error_line := false } ∧
      isr { buffer := [68, 10] ++ List.replicate 48 0, buffer_size := 0, counter := 1,
            error_line := false } 10 = some
        { buffer := [68, 10] ++ List.replicate 48 0, buffer_size := 2, counter := 0,
          error_line := false } ∧
      (2 : Nat) = (currentLine (bytes
        [Event.byte 65, Event.byte 10, Event.byte 66, Event.consume, Event.byte 10,
          Event.byte 68])).length + 1 ∧
      ([68, 10] ++ List.replicate 48 0 : List Nat).take 2 = currentLine (bytes
        [Event.byte 65, Event.byte 10, Event.byte 66, Event.consume, Event.byte 10,
          Event.byte 68]) ++ [COMPLETE] :=
  have h := (published_frame_is_whole_line
    [Event.byte 65, Event.byte 10, Event.byte 66, Event.consume, Event.byte 10, Event.byte 68]
    10).1
    { buffer := [68, 10] ++ List.replicate 48 0, buffer_size := 0, counter := 1,
      error_line := false }
    { buffer := [68, 10] ++ List.replicate 48 0, buffer_size := 2, counter := 0,
      error_line := false }
    (by decide) (by decide) rfl (by decide)
  ⟨by decide, by decide, h.2.1, h.2.2⟩

end Loss

/-! ### Published frames of the delimiter sketches -/

namespace Double

end Double

namespace Double

end Double

/-! ### Published frames of the delimiter sketches: all interleavings that fit -/

